import Mathlib

/-!
# Gestor Financeiro — recurring-obligation scheduler and budget/goal engine

Shallow embedding of the core business logic of the repository
(`gestor-financeiro-frontend/src/App.jsx` and the Express backend):

* `calcNextDue` — advancing a due date by a recurrence frequency,
  including the fifth-business-day rule (App.jsx lines 281–303);
* the creation-time advancement loop of `addRecurringExpense`
  (App.jsx lines 794–799), embedded as `advanceUntilFuture`;
* `payRecurringExpense` — the "mark as paid" bridge that posts a ledger
  transaction and rolls the obligation forward (App.jsx lines 845–894);
* `checkDueExpenses` — the due-soon / overdue classifier (lines 1017–1041),
  embedded as `classify`;
* `getSpent` — the budget aggregator of the `Orcamentos` component
  (lines 2206–2221);
* `handleContribution` / goal completion of the `Metas` component
  (lines 2436–2442, 2495–2499).

Dates are naive calendar dates (year, month, day), mirroring the
`"YYYY-MM-DD"` strings the app passes around; JavaScript `Date` month
arithmetic (`setMonth`, day-of-month overflow rollover, `getDay`) is
embedded over the proleptic Gregorian calendar.
-/

namespace Gestor

/-- A naive calendar date, as carried by the app's `"YYYY-MM-DD"` strings. -/
structure Date where
  y : Nat
  m : Nat
  d : Nat
deriving DecidableEq, Repr

/-- `a <= b` on dates, lexicographic on (year, month, day).  For four-digit
years and zero-padded months/days this is exactly the JavaScript string
comparison `nextDueDate <= today` used in `addRecurringExpense`. -/
def Date.le (a b : Date) : Bool :=
  a.y < b.y || (a.y == b.y && (a.m < b.m || (a.m == b.m && a.d ≤ b.d)))

/-- Strict `a < b` on dates, lexicographic on (year, month, day). -/
def Date.lt (a b : Date) : Bool :=
  a.y < b.y || (a.y == b.y && (a.m < b.m || (a.m == b.m && a.d < b.d)))

/-- Gregorian leap-year rule, as implemented by JavaScript `Date`. -/
def isLeap (y : Nat) : Bool :=
  (y % 4 == 0 && y % 100 != 0) || y % 400 == 0

/-- Number of days of month `m` (1–12) of year `y`. -/
def monthLen (y m : Nat) : Nat :=
  if m = 2 then (if isLeap y then 29 else 28)
  else if m = 4 || m = 6 || m = 9 || m = 11 then 30
  else 31

/-- Day-of-month overflow rollover: `Date(y, m-1, d)` with `d` beyond the end
of the month lands in the following month, exactly as a JavaScript `Date`
normalizes it.  For the inputs produced here (`d ≤ 31`) a single carry
suffices, because every month has at least 28 days. -/
def normDay (y m d : Nat) : Date :=
  if d > monthLen y m then
    if m = 12 then ⟨y + 1, 1, d - monthLen y m⟩
    else ⟨y, m + 1, d - monthLen y m⟩
  else ⟨y, m, d⟩

/-- `date.setMonth(date.getMonth() + k)`: month index arithmetic with year
carry, then day-of-month rollover. -/
def addMonths (dt : Date) (k : Nat) : Date :=
  let m0 := dt.m - 1 + k
  normDay (dt.y + m0 / 12) (m0 % 12 + 1) dt.d

/-- Days of year `y` strictly before month `m`. -/
def daysBeforeMonth (y : Nat) : Nat → Nat
  | 0 => 0
  | Nat.succ n => if n = 0 then 0 else daysBeforeMonth y n + monthLen y n

/-- Rata-die day number of a date (0 for 0001-01-01, proleptic Gregorian). -/
def rataDie (dt : Date) : Nat :=
  365 * (dt.y - 1) + ((dt.y - 1) / 4 + (dt.y - 1) / 400 - (dt.y - 1) / 100)
    + daysBeforeMonth dt.y dt.m + (dt.d - 1)

/-- JavaScript `Date.prototype.getDay`: 0 = Sunday … 6 = Saturday.
0001-01-01 was a Monday (`getDay = 1`). -/
def dow (dt : Date) : Nat :=
  (rataDie dt + 1) % 7

/-- The `while (count < 5)` loop of the fifth-business-day branch of
`calcNextDue`: walk the days of month (`y`, `m`) from day `td`, counting
days whose weekday is neither Sunday (0) nor Saturday (6); the day counter
stops advancing once the running count reaches 5.  The source loop is
unbounded; termination is supplied by explicit fuel (31 at the call site,
far more than the 7 days the loop can actually visit). -/
def fifthLoop (y m : Nat) : Nat → Nat → Nat → Nat
  | _, td, 0 => td
  | count, td, fuel + 1 =>
    let w := dow ⟨y, m, td⟩
    let count2 := if w ≠ 0 ∧ w ≠ 6 then count + 1 else count
    if count2 < 5 then fifthLoop y m count2 (td + 1) fuel else td

/-- `calcNextDue` (App.jsx 281–303): advance a due date by one recurrence
interval.  The `fifth-business-day` branch builds `new Date(y, m, 1)` — the
first day of the month after the input's month (December rolls into January
of the next year) — and returns that month's fifth weekday.  The `default`
branch of the source `switch` silently adds one month. -/
def calcNextDue (cur : Date) (frequency : String) : Date :=
  match frequency with
  | "monthly" => addMonths cur 1
  | "bimonthly" => addMonths cur 2
  | "quarterly" => addMonths cur 3
  | "semiannual" => addMonths cur 6
  | "annual" => normDay (cur.y + 1) cur.m cur.d
  | "fifth-business-day" =>
    let ny := cur.y + cur.m / 12
    let nm := cur.m % 12 + 1
    ⟨ny, nm, fifthLoop ny nm 0 1 31⟩
  | _ => addMonths cur 1

/-- The creation-time advancement loop of `addRecurringExpense`
(App.jsx 794–799): `while (nextDueDate <= today) nextDueDate =
calcNextDue(nextDueDate, recurrence)`.  The source loop is unbounded;
termination is supplied by explicit fuel. -/
def advanceUntilFuture (fuel : Nat) (due : Date) (freq : String) (today : Date) : Date :=
  match fuel with
  | 0 => due
  | f + 1 =>
    if Date.le due today then advanceUntilFuture f (calcNextDue due freq) freq today
    else due

/-- A recurring obligation, as the frontend holds it (`recurring_expenses`
row): the category field carries the display name (e.g. `"Moradia"`). -/
structure Expense where
  description : String
  category : String
  value : Int
  frequency : String
  nextDue : Date
deriving DecidableEq, Repr

/-- A ledger transaction as posted to `POST /transactions`. -/
structure Tx where
  type : String
  description : String
  category : String
  value : Int
  date : Date
deriving DecidableEq, Repr

/-- `RECURRING_CAT_MAP` (App.jsx 305–308): display name → category id. -/
def RECURRING_CAT_MAP : List (String × String) :=
  [("Alimentação", "alim"), ("Transporte", "trans"), ("Moradia", "mor"),
   ("Saúde", "sau"), ("Lazer", "laz"), ("Outros", "out-desp")]

/-- The transaction body `payRecurringExpense` posts (App.jsx 853–865):
type `despesa`, description/value copied from the obligation, category
mapped through `RECURRING_CAT_MAP` with fallback `'out-desp'`
(`RECURRING_CAT_MAP[expense.category] || 'out-desp'`; every value of the
table is a non-empty, hence truthy, string), and date = the obligation's
current `next_due_date` — the payment-action date plays no role. -/
def payTx (e : Expense) : Tx :=
  { type := "despesa", description := e.description,
    category := ((RECURRING_CAT_MAP.lookup e.category).getD "out-desp"),
    value := e.value, date := e.nextDue }

/-- Observable persistent state touched by `payRecurringExpense`: the ledger
(`transactions` table, restricted to the paying user) and the one
obligation row being paid. -/
structure PayState where
  ledger : List Tx
  expense : Expense
deriving DecidableEq, Repr

/-- `payRecurringExpense` (App.jsx 845–894) as a state transformer.
`txOk` is whether `POST /transactions` succeeds, `updOk` whether the
follow-up `PUT /recurring-expenses/:id` succeeds.  The source returns early
(state untouched) when the transaction post fails; after a successful post
it computes `newDue = calcNextDue(dueDate, freq)` — a single interval
application, no loop — and issues the PUT without inspecting its response,
so a failed PUT leaves the posted transaction in the ledger with the
obligation row unchanged. -/
def payRecurringExpense (s : PayState) (txOk updOk : Bool) : PayState :=
  let e := s.expense
  if !txOk then s
  else
    let newDue := calcNextDue e.nextDue e.frequency
    let ledger2 := s.ledger ++ [payTx e]
    if updOk then { ledger := ledger2, expense := { e with nextDue := newDue } }
    else { ledger := ledger2, expense := e }

/-- Alert bucket of an obligation relative to today. -/
inductive Bucket where
  | overdue
  | dueSoon
  | scheduled
deriving DecidableEq, Repr

/-- Milliseconds per day, the divisor in `checkDueExpenses`. -/
def msPerDay : Int := 86400000

/-- `Math.ceil(a / b)` for integer `a` and positive integer `b`. -/
def ceilDiv (a b : Int) : Int := -(Int.ediv (-a) b)

/-- The day count of `checkDueExpenses` (App.jsx 1017–1041):
`Math.ceil((dueDate - today) / 86400000)`, where `dueDate` is the due date
at midnight and `today` is the moment of the call — its calendar date plus
a time-of-day offset of `t` milliseconds. -/
def diffDays (due today : Date) (t : Nat) : Int :=
  ceilDiv ((rataDie due : Int) * msPerDay - ((rataDie today : Int) * msPerDay + (t : Int))) msPerDay

/-- The classification of `checkDueExpenses`: an alert with `daysUntilDue`
for `0 ≤ diffDays ≤ 7`, an alert flagged `overdue` for `diffDays < 0`,
and no alert otherwise. -/
def classify (due today : Date) (t : Nat) : Bucket × Int :=
  let diff := diffDays due today t
  if diff ≤ 7 ∧ 0 ≤ diff then (Bucket.dueSoon, diff)
  else if diff < 0 then (Bucket.overdue, diff)
  else (Bucket.scheduled, diff)

/-- The expense-category catalog of the `Orcamentos` component
(App.jsx 2195–2199), as (display name, id) pairs. -/
def categoriasDesp : List (String × String) :=
  [("Alimentação", "alim"), ("Transporte", "trans"), ("Moradia", "mor"),
   ("Saúde", "sau"), ("Lazer", "laz"), ("Outros", "out-desp")]

/-- `String.prototype.toLowerCase` restricted to the ASCII range — the
accented characters of the fixed catalog names are already lowercase, so on
every string this code compares the two models agree. -/
def lowerChar (c : Char) : Char :=
  if 'A' ≤ c ∧ c ≤ 'Z' then Char.ofNat (c.toNat + 32) else c

def lowerStr (s : String) : String :=
  String.mk (s.data.map lowerChar)

/-- `getCatIds` (App.jsx 2206–2207): the ids of catalog entries whose display
name matches the budget's category name case-insensitively. -/
def getCatIds (name : String) : List String :=
  (categoriasDesp.filter (fun c => lowerStr c.1 == lowerStr name)).map (fun c => c.2)

/-- `getSpent` (App.jsx 2209–2221): filter the transactions to expense type,
category id among the resolved ids, and date within the current month
(period `monthly`) or current year (otherwise), then sum the values. -/
def getSpent (catName period : String) (transactions : List Tx) (now : Date) : Int :=
  (transactions.filter (fun t =>
      t.type == "despesa" &&
      (getCatIds catName).contains t.category &&
      (if period == "monthly" then t.date.m == now.m && t.date.y == now.y
       else t.date.y == now.y))).foldl (fun s t => s + t.value) 0

/-- A goal row as the `Metas` component holds it. -/
structure Goal where
  target : Int
  current : Int
deriving DecidableEq, Repr

/-- `handleContribution` (App.jsx 2436–2442): unconditionally add the parsed
contribution to `current_amount` and persist — there is no sign or
positivity check anywhere on the path (neither here nor in the backend's
`PUT /goals/:id`). -/
def handleContribution (g : Goal) (contribution : Int) : Goal :=
  { g with current := g.current + contribution }

/-- Goal completion as computed by `Metas` (App.jsx 2499):
`current >= target`. -/
def isComplete (g : Goal) : Bool :=
  g.target ≤ g.current

/-- A well-formed calendar date: month 1–12, day within the month. -/
def ValidDate (dt : Date) : Prop :=
  1 ≤ dt.m ∧ dt.m ≤ 12 ∧ 1 ≤ dt.d ∧ dt.d ≤ monthLen dt.y dt.m

instance (dt : Date) : Decidable (ValidDate dt) := by
  unfold ValidDate; infer_instance

/-- Following the spec's words: the days of month (`y`, `m`), counted from
the 1st, that are neither Saturday nor Sunday. -/
def weekdayList (y m : Nat) : List Nat :=
  ((List.range 31).map (fun k => k + 1)).filter
    (fun td => dow ⟨y, m, td⟩ != 0 && dow ⟨y, m, td⟩ != 6)

/-- Following the spec's words: the 5th day of the month immediately
following `dt`'s month that is neither Saturday nor Sunday, counted from
the 1st of that following month. -/
def specFifthBusinessDay (dt : Date) : Date :=
  let ny := if dt.m = 12 then dt.y + 1 else dt.y
  let nm := if dt.m = 12 then 1 else dt.m + 1
  ⟨ny, nm, (weekdayList ny nm).getD 4 0⟩

/-- `fifthLoop` with the day-of-week test abstracted to the rata-die number
`r` of the 1st of the month being walked. -/
def fifthLoopR (r : Nat) : Nat → Nat → Nat → Nat
  | _, td, 0 => td
  | count, td, fuel + 1 =>
    let w := (r + td) % 7
    let count2 := if w ≠ 0 ∧ w ≠ 6 then count + 1 else count
    if count2 < 5 then fifthLoopR r count2 (td + 1) fuel else td

/-- `weekdayList` with the day-of-week test abstracted to the rata-die
number of the 1st. -/
def weekdayListR (r : Nat) : List Nat :=
  ((List.range 31).map (fun k => k + 1)).filter
    (fun td => (r + td) % 7 != 0 && (r + td) % 7 != 6)

/-- Order-embedding of well-formed dates into `Nat`, used as the decreasing
measure of the advancement loop. -/
def encode (dt : Date) : Nat :=
  (dt.y * 12 + dt.m) * 32 + dt.d

/-- An obligation two and a half months overdue, paid on 2024-03-15. -/
def c1State : PayState :=
  { ledger := [],
    expense := { description := "Aluguel", category := "Moradia", value := 1200,
                 frequency := "monthly", nextDue := ⟨2024, 1, 1⟩ } }

/-- A current obligation used to exercise the failure path of the
obligation update. -/
def cexState : PayState :=
  { ledger := [],
    expense := { description := "Aluguel", category := "Moradia", value := 1200,
                 frequency := "monthly", nextDue := ⟨2024, 3, 10⟩ } }

/-- A current obligation paid twice in sequence. -/
def c7State : PayState :=
  { ledger := [],
    expense := { description := "Internet", category := "Moradia", value := 99,
                 frequency := "monthly", nextDue := ⟨2024, 3, 10⟩ } }

/-- Three `Moradia` expense transactions: 500 and 300 in March 2024 and 100
in February 2024. -/
def demoTxs : List Tx :=
  [{ type := "despesa", description := "aluguel", category := "mor", value := 500,
     date := ⟨2024, 3, 2⟩ },
   { type := "despesa", description := "condominio", category := "mor", value := 300,
     date := ⟨2024, 3, 20⟩ },
   { type := "despesa", description := "reparo", category := "mor", value := 100,
     date := ⟨2024, 2, 10⟩ }]

/-! ## Helper lemmas -/

theorem Date.le_iff {a b : Date} :
    Date.le a b = true ↔
      (a.y < b.y ∨ (a.y = b.y ∧ (a.m < b.m ∨ (a.m = b.m ∧ a.d ≤ b.d)))) := by
  simp [Date.le]

theorem Date.lt_iff {a b : Date} :
    Date.lt a b = true ↔
      (a.y < b.y ∨ (a.y = b.y ∧ (a.m < b.m ∨ (a.m = b.m ∧ a.d < b.d)))) := by
  simp [Date.lt]

theorem monthLen_ge (y m : Nat) : 28 ≤ monthLen y m := by
  unfold monthLen; split_ifs <;> omega

theorem monthLen_le (y m : Nat) : monthLen y m ≤ 31 := by
  unfold monthLen; split_ifs <;> omega

theorem normDay_valid {y m d : Nat} (hm1 : 1 ≤ m) (hm2 : m ≤ 12)
    (hd1 : 1 ≤ d) (hd2 : d ≤ 31) : ValidDate (normDay y m d) := by
  unfold normDay ValidDate
  have h1 := monthLen_ge y m
  have h2 := monthLen_ge (y + 1) 1
  have h3 := monthLen_ge y (m + 1)
  split_ifs <;> simp_all <;> omega

/-- `normDay` never moves to an earlier month: its (year, month) pair is at
least the input pair, lexicographically. -/
theorem normDay_pair_ge (y m d : Nat) :
    y < (normDay y m d).y ∨ ((normDay y m d).y = y ∧ m ≤ (normDay y m d).m) := by
  unfold normDay; split_ifs <;> simp

/-- Adding `k ≥ 1` months moves the (year, month) pair strictly forward. -/
theorem addMonths_pair_gt (dt : Date) (k : Nat) (hk : 1 ≤ k) (hm : 1 ≤ dt.m) :
    dt.y < (addMonths dt k).y ∨
      ((addMonths dt k).y = dt.y ∧ dt.m < (addMonths dt k).m) := by
  simp only [addMonths, normDay]
  split_ifs <;> simp <;> omega

/-- One interval application always lands strictly after the input date
(every branch of the `switch`, the silent default included). -/
theorem calcNextDue_lt (dt : Date) (freq : String)
    (hm1 : 1 ≤ dt.m) (hm2 : dt.m ≤ 12) :
    Date.lt dt (calcNextDue dt freq) = true := by
  have pair : dt.y < (calcNextDue dt freq).y ∨
      ((calcNextDue dt freq).y = dt.y ∧ dt.m < (calcNextDue dt freq).m) := by
    unfold calcNextDue
    split
    · exact addMonths_pair_gt dt 1 (by omega) hm1
    · exact addMonths_pair_gt dt 2 (by omega) hm1
    · exact addMonths_pair_gt dt 3 (by omega) hm1
    · exact addMonths_pair_gt dt 6 (by omega) hm1
    · unfold normDay; split_ifs <;> simp <;> omega
    · simp; omega
    · exact addMonths_pair_gt dt 1 (by omega) hm1
  rw [Date.lt_iff]
  omega

theorem Date.le_false_of_lt {a b : Date} (h : Date.lt a b = true) :
    Date.le b a = false := by
  rw [Date.lt_iff] at h
  cases hle : Date.le b a
  · rfl
  · rw [Date.le_iff] at hle; omega

theorem Date.ne_of_lt {a b : Date} (h : Date.lt a b = true) : a ≠ b := by
  rw [Date.lt_iff] at h
  intro he
  subst he
  omega

/-- Within a month the day-of-week walks forward one step per day:
`dow ⟨y, m, td⟩` is determined by the rata-die number of the 1st. -/
theorem dow_eq (y m td : Nat) (h : 1 ≤ td) :
    dow ⟨y, m, td⟩ = (rataDie ⟨y, m, 1⟩ + td) % 7 := by
  simp only [dow, rataDie]
  congr 1
  omega

theorem fifthLoop_eq_fifthLoopR (y m : Nat) :
    ∀ fuel count td, 1 ≤ td →
      fifthLoop y m count td fuel = fifthLoopR (rataDie ⟨y, m, 1⟩) count td fuel := by
  intro fuel
  induction fuel with
  | zero => intro count td _; rfl
  | succ f ih =>
    intro count td htd
    simp only [fifthLoop, fifthLoopR, dow_eq y m td htd]
    split
    all_goals split
    any_goals rfl
    all_goals exact ih _ _ (by omega)

theorem fifthLoopR_mod (r : Nat) :
    ∀ fuel count td, fifthLoopR r count td fuel = fifthLoopR (r % 7) count td fuel := by
  intro fuel
  induction fuel with
  | zero => intro count td; rfl
  | succ f ih =>
    intro count td
    simp only [fifthLoopR, Nat.mod_add_mod]
    split
    all_goals split
    any_goals rfl
    all_goals exact ih _ _

/-- The fifth-business-day scan stops between day 1 and day 7 of the month. -/
theorem fifthLoop_bounds (y m : Nat) :
    1 ≤ fifthLoop y m 0 1 31 ∧ fifthLoop y m 0 1 31 ≤ 7 := by
  rw [fifthLoop_eq_fifthLoopR y m 31 0 1 (by omega), fifthLoopR_mod]
  have h : rataDie ⟨y, m, 1⟩ % 7 = 0 ∨ rataDie ⟨y, m, 1⟩ % 7 = 1 ∨
      rataDie ⟨y, m, 1⟩ % 7 = 2 ∨ rataDie ⟨y, m, 1⟩ % 7 = 3 ∨
      rataDie ⟨y, m, 1⟩ % 7 = 4 ∨ rataDie ⟨y, m, 1⟩ % 7 = 5 ∨
      rataDie ⟨y, m, 1⟩ % 7 = 6 := by omega
  rcases h with h | h | h | h | h | h | h <;> rw [h] <;> decide

/-- One interval application keeps a date well-formed. -/
theorem calcNextDue_valid (dt : Date) (freq : String) (hv : ValidDate dt) :
    ValidDate (calcNextDue dt freq) := by
  obtain ⟨hm1, hm2, hd1, hd2⟩ := hv
  have hd31 : dt.d ≤ 31 := le_trans hd2 (monthLen_le dt.y dt.m)
  unfold calcNextDue
  split
  · exact normDay_valid (by omega) (by omega) hd1 hd31
  · exact normDay_valid (by omega) (by omega) hd1 hd31
  · exact normDay_valid (by omega) (by omega) hd1 hd31
  · exact normDay_valid (by omega) (by omega) hd1 hd31
  · exact normDay_valid (by omega) (by omega) hd1 hd31
  · have hb := fifthLoop_bounds (dt.y + dt.m / 12) (dt.m % 12 + 1)
    have hg := monthLen_ge (dt.y + dt.m / 12) (dt.m % 12 + 1)
    unfold ValidDate
    dsimp only
    exact ⟨by omega, by omega, by omega, by omega⟩
  · exact normDay_valid (by omega) (by omega) hd1 hd31

theorem weekdayList_eq (y m : Nat) :
    weekdayList y m = weekdayListR (rataDie ⟨y, m, 1⟩) := by
  unfold weekdayList weekdayListR
  apply List.filter_congr
  intro td htd
  have h1 : 1 ≤ td := by
    simp only [List.mem_map, List.mem_range] at htd
    omega
  rw [dow_eq y m td h1]

theorem weekdayListR_mod (r : Nat) : weekdayListR r = weekdayListR (r % 7) := by
  unfold weekdayListR
  apply List.filter_congr
  intro td _
  rw [Nat.mod_add_mod]

/-- The fifth-business-day scan of the source computes exactly the 5th
weekday of the month counting from the 1st. -/
theorem fifthLoop_eq_weekdayList (y m : Nat) :
    fifthLoop y m 0 1 31 = (weekdayList y m).getD 4 0 := by
  have aux : ∀ r : Nat, r < 7 → fifthLoopR r 0 1 31 = (weekdayListR r).getD 4 0 := by
    intro r hr
    interval_cases r <;> decide
  rw [fifthLoop_eq_fifthLoopR y m 31 0 1 (by omega), fifthLoopR_mod,
      weekdayList_eq, weekdayListR_mod]
  exact aux _ (Nat.mod_lt _ (by omega))

theorem encode_lt_of_lt {a b : Date} (h : Date.lt a b = true)
    (ham : a.m ≤ 12) (had : a.d ≤ 31) (hbm : 1 ≤ b.m) :
    encode a < encode b := by
  rw [Date.lt_iff] at h
  unfold encode
  rcases h with h | ⟨hy, h | ⟨hm, hd⟩⟩
  · nlinarith
  · nlinarith
  · nlinarith

theorem encode_le_of_le {a b : Date} (h : Date.le a b = true)
    (ham : a.m ≤ 12) (had : a.d ≤ 31) (hbm : 1 ≤ b.m) :
    encode a ≤ encode b := by
  rw [Date.le_iff] at h
  unfold encode
  rcases h with h | ⟨hy, h | ⟨hm, hd⟩⟩
  · nlinarith
  · nlinarith
  · nlinarith

/-- With enough fuel the creation-time advancement loop always lands
strictly after `today`: the loop keeps iterating exactly while
`nextDueDate <= today`, and every iteration moves the date strictly
forward. -/
theorem advanceUntilFuture_gt_today (freq : String) (today : Date)
    (hvt : ValidDate today) :
    ∀ fuel due, ValidDate due → encode today + 1 ≤ encode due + fuel →
      Date.le (advanceUntilFuture fuel due freq today) today = false := by
  intro fuel
  induction fuel with
  | zero =>
    intro due hv hfuel
    unfold advanceUntilFuture
    cases hle : Date.le due today
    · rfl
    · exfalso
      have := encode_le_of_le hle hv.2.1
        (le_trans hv.2.2.2 (monthLen_le due.y due.m)) hvt.1
      omega
  | succ f ih =>
    intro due hv hfuel
    unfold advanceUntilFuture
    cases hle : Date.le due today
    · simp only [Bool.false_eq_true, if_neg]; exact hle
    · simp only [if_pos]
      have hv2 := calcNextDue_valid due freq hv
      have hlt := calcNextDue_lt due freq hv.1 hv.2.1
      have henc := encode_lt_of_lt hlt hv.2.1
        (le_trans hv.2.2.2 (monthLen_le due.y due.m)) hv2.1
      exact ih (calcNextDue due freq) hv2 (by omega)

/-- The advancement loop performs zero iterations on a date already in the
future. -/
theorem advanceUntilFuture_of_not_le (fuel : Nat) (due : Date) (freq : String)
    (today : Date) (h : Date.le due today = false) :
    advanceUntilFuture fuel due freq today = due := by
  cases fuel with
  | zero => rfl
  | succ f => simp [advanceUntilFuture, h]

/-- For any time of day `t` (milliseconds since local midnight), the
`Math.ceil` of the millisecond difference divided by a day is exactly the
calendar-day difference. -/
theorem diffDays_eq (due today : Date) (t : Nat) (ht : t < 86400000) :
    diffDays due today t = (rataDie due : Int) - (rataDie today : Int) := by
  unfold diffDays ceilDiv msPerDay
  have h1 : -((rataDie due : Int) * 86400000 - ((rataDie today : Int) * 86400000 + (t : Int)))
      = (t : Int) + ((rataDie today : Int) - (rataDie due : Int)) * 86400000 := by ring
  rw [h1]
  have h2 : Int.ediv ((t : Int) + ((rataDie today : Int) - (rataDie due : Int)) * 86400000) 86400000
      = (rataDie today : Int) - (rataDie due : Int) := by
    show ((t : Int) + ((rataDie today : Int) - (rataDie due : Int)) * 86400000) / 86400000 = _
    rw [Int.add_mul_ediv_right _ _ (by norm_num : (86400000 : Int) ≠ 0),
        Int.ediv_eq_zero_of_lt (by positivity) (by exact_mod_cast ht)]
    ring
  rw [h2]
  ring

theorem foldl_add_value (l : List Tx) :
    ∀ a : Int, l.foldl (fun s t => s + t.value) a = a + (l.map Tx.value).sum := by
  induction l with
  | nil => intro a; simp
  | cons x xs ih => intro a; simp [ih, add_assoc]

/-! ## Claims -/

/-- Claim C1, counterexample: an obligation due 2024-01-01 (monthly), paid
with both writes succeeding on 2024-03-15, ends with persisted
`nextDueDate = 2024-02-01`, which is `<=` today — not strictly greater, so
the pay half of the claimed invariant fails on the code. -/
theorem pay_overdue_not_future_cex :
    (payRecurringExpense c1State true true).expense.nextDue = ⟨2024, 2, 1⟩ ∧
    Date.le (payRecurringExpense c1State true true).expense.nextDue ⟨2024, 3, 15⟩ = true := by
  exact ⟨by decide, by decide⟩

/-- Claim C1, amended: a successful pay persists exactly one interval
application — `calcNextDue` of the old due date, strictly later than the
old due date but not necessarily later than today — while the creation-time
loop (`advanceUntilFuture`, given enough fuel for its `while` to finish)
does land strictly after the `today` used at creation. -/
theorem pay_single_interval_creation_future :
    (∀ s : PayState, (payRecurringExpense s true true).expense.nextDue =
        calcNextDue s.expense.nextDue s.expense.frequency) ∧
    (∀ s : PayState, ValidDate s.expense.nextDue →
        Date.lt s.expense.nextDue
          (payRecurringExpense s true true).expense.nextDue = true) ∧
    (∀ (fuel : Nat) (due today : Date) (freq : String),
        ValidDate due → ValidDate today →
        encode today + 1 ≤ encode due + fuel →
        Date.le (advanceUntilFuture fuel due freq today) today = false) := by
  refine ⟨fun s => rfl, fun s hv => calcNextDue_lt _ _ hv.1 hv.2.1,
    fun fuel due today freq hv hvt h =>
      advanceUntilFuture_gt_today freq today hvt fuel due hv h⟩

theorem pay_single_interval_creation_future_witness :
    Date.lt (⟨2024, 1, 1⟩ : Date)
      (payRecurringExpense c1State true true).expense.nextDue = true ∧
    Date.le (advanceUntilFuture 100 ⟨2024, 1, 1⟩ "monthly" ⟨2024, 3, 15⟩)
      ⟨2024, 3, 15⟩ = false :=
  ⟨pay_single_interval_creation_future.2.1 c1State (by decide),
   pay_single_interval_creation_future.2.2 100 ⟨2024, 1, 1⟩ ⟨2024, 3, 15⟩
     "monthly" (by decide) (by decide) (by decide)⟩

/-- Claim C2, counterexample: when the ledger write succeeds and the
obligation update fails, the observable state has changed — the posted
transaction stays in the ledger while the obligation is untouched — so the
"on failure of either, both are rolled back" half of the claim fails on the
code (the source never inspects the PUT response). -/
theorem pay_partial_write_cex :
    payRecurringExpense cexState true false ≠ cexState ∧
    (payRecurringExpense cexState true false).ledger =
      cexState.ledger ++ [payTx cexState.expense] ∧
    (payRecurringExpense cexState true false).expense = cexState.expense := by
  exact ⟨by decide, rfl, rfl⟩

/-- Claim C2, amended: a fully successful pay performs exactly one ledger
append and one obligation update; a failed ledger write leaves the state
unchanged (the obligation is not advanced); but the two writes are not
transactional — a failed obligation update after a successful ledger write
leaves the appended transaction in place. -/
theorem pay_write_effects :
    (∀ (s : PayState) (u : Bool), payRecurringExpense s false u = s) ∧
    (∀ s : PayState, payRecurringExpense s true true =
      { ledger := s.ledger ++ [payTx s.expense],
        expense := { s.expense with
          nextDue := calcNextDue s.expense.nextDue s.expense.frequency } }) ∧
    (∀ s : PayState, payRecurringExpense s true false =
      { ledger := s.ledger ++ [payTx s.expense], expense := s.expense }) := by
  exact ⟨fun s u => rfl, fun s => rfl, fun s => rfl⟩

/-- Claim C3: at the failing input, an unrecognized frequency tag does not
fail — the `default` branch of `calcNextDue` silently performs the same
one-month advancement as `monthly`. -/
theorem calcNextDue_silent_monthly_default :
    calcNextDue ⟨2024, 1, 15⟩ "weekly" = ⟨2024, 2, 15⟩ ∧
    calcNextDue ⟨2024, 1, 15⟩ "weekly" = calcNextDue ⟨2024, 1, 15⟩ "monthly" ∧
    calcNextDue ⟨2024, 1, 15⟩ "anything-else" = ⟨2024, 2, 15⟩ := by
  exact ⟨by decide, by decide, by decide⟩

/-- Claim C4: the advancement loop stops on `<=` — a due date strictly after
today is returned unchanged with zero interval applications, and a due date
exactly equal to today is advanced to the next occurrence (one interval
application, whose result is a different, strictly later date). -/
theorem advanceUntilFuture_zero_or_push :
    (∀ (fuel : Nat) (due : Date) (freq : String) (today : Date),
        Date.le due today = false →
        advanceUntilFuture fuel due freq today = due) ∧
    (∀ (fuel : Nat) (due : Date) (freq : String), ValidDate due →
        advanceUntilFuture (fuel + 1) due freq due = calcNextDue due freq ∧
        calcNextDue due freq ≠ due) := by
  constructor
  · exact fun fuel due freq today h =>
      advanceUntilFuture_of_not_le fuel due freq today h
  · intro fuel due freq hv
    have hlt := calcNextDue_lt due freq hv.1 hv.2.1
    have hle : Date.le due due = true := by rw [Date.le_iff]; omega
    constructor
    · simp only [advanceUntilFuture, hle, if_true]
      exact advanceUntilFuture_of_not_le _ _ _ _ (Date.le_false_of_lt hlt)
    · exact fun h => Date.ne_of_lt hlt h.symm

theorem advanceUntilFuture_zero_or_push_witness :
    advanceUntilFuture 5 ⟨2024, 5, 1⟩ "monthly" ⟨2024, 3, 15⟩ = ⟨2024, 5, 1⟩ ∧
    advanceUntilFuture 3 ⟨2024, 3, 15⟩ "monthly" ⟨2024, 3, 15⟩ =
      calcNextDue ⟨2024, 3, 15⟩ "monthly" :=
  ⟨advanceUntilFuture_zero_or_push.1 5 ⟨2024, 5, 1⟩ "monthly" ⟨2024, 3, 15⟩
     (by decide),
   (advanceUntilFuture_zero_or_push.2 2 ⟨2024, 3, 15⟩ "monthly" (by decide)).1⟩

/-- Claim C5, counterexample: contributing −10 to a goal with target 1000
and current 900 does not fail and does not leave the goal unchanged — the
code adds the amount unconditionally, yielding current 890. -/
theorem contribution_negative_cex :
    handleContribution ⟨1000, 900⟩ (-10) = ⟨1000, 890⟩ ∧
    handleContribution ⟨1000, 900⟩ (-10) ≠ ⟨1000, 900⟩ := by
  exact ⟨by decide, by decide⟩

/-- Claim C5, amended: `contribute` adds the amount to `currentAmount`
unconditionally — for every amount, including zero and negative ones, with
no `NonPositiveContribution` failure — leaving the target untouched;
completion holds exactly when `currentAmount ≥ targetAmount`, and the
spec's positive example (900 + 150 → 1050, complete) does hold. -/
theorem contribution_unconditional_add :
    (∀ (g : Goal) (a : Int), (handleContribution g a).current = g.current + a ∧
        (handleContribution g a).target = g.target) ∧
    (∀ g : Goal, isComplete g = true ↔ g.target ≤ g.current) ∧
    handleContribution ⟨1000, 900⟩ 150 = ⟨1000, 1050⟩ ∧
    isComplete ⟨1000, 1050⟩ = true := by
  refine ⟨fun g a => ⟨rfl, rfl⟩, fun g => ?_, by decide, by decide⟩
  simp [isComplete]

/-- Claim C6: for every date, the fifth-business-day advancement returns,
in the month immediately following the input's month, the 5th day that is
neither Saturday nor Sunday counted from the 1st of that month; in
particular 2024-01-15 advances to 2024-02-07. -/
theorem fifth_business_day_next_month :
    (∀ dt : Date, 1 ≤ dt.m → dt.m ≤ 12 →
        calcNextDue dt "fifth-business-day" = specFifthBusinessDay dt) ∧
    calcNextDue ⟨2024, 1, 15⟩ "fifth-business-day" = ⟨2024, 2, 7⟩ := by
  constructor
  · intro dt h1 h2
    show (⟨dt.y + dt.m / 12, dt.m % 12 + 1,
          fifthLoop (dt.y + dt.m / 12) (dt.m % 12 + 1) 0 1 31⟩ : Date) = _
    simp only [specFifthBusinessDay, Date.mk.injEq]
    refine ⟨by split_ifs <;> omega, by split_ifs <;> omega, ?_⟩
    rw [fifthLoop_eq_weekdayList]
    have hy : dt.y + dt.m / 12 = if dt.m = 12 then dt.y + 1 else dt.y := by
      split_ifs <;> omega
    have hm : dt.m % 12 + 1 = if dt.m = 12 then 1 else dt.m + 1 := by
      split_ifs <;> omega
    rw [hy, hm]
  · decide

theorem fifth_business_day_next_month_witness :
    calcNextDue ⟨2024, 1, 15⟩ "fifth-business-day" =
      specFifthBusinessDay ⟨2024, 1, 15⟩ :=
  fifth_business_day_next_month.1 ⟨2024, 1, 15⟩ (by decide) (by decide)

/-- Claim C7: each successful pay records the ledger transaction dated at
the obligation's current `nextDueDate` (the payment-action date is not even
an input), so two sequential pays append two distinct transactions — the
first dated at the original due date, the second at the advanced one. -/
theorem pay_tx_dated_at_scheduled_due (s : PayState)
    (hv : ValidDate s.expense.nextDue) :
    (payRecurringExpense (payRecurringExpense s true true) true true).ledger =
      s.ledger ++ [payTx s.expense,
        payTx (payRecurringExpense s true true).expense] ∧
    (payTx s.expense).date = s.expense.nextDue ∧
    (payTx (payRecurringExpense s true true).expense).date =
      calcNextDue s.expense.nextDue s.expense.frequency ∧
    (payTx s.expense).date ≠ (payTx (payRecurringExpense s true true).expense).date ∧
    payTx s.expense ≠ payTx (payRecurringExpense s true true).expense := by
  have hlt := calcNextDue_lt s.expense.nextDue s.expense.frequency hv.1 hv.2.1
  have hne := Date.ne_of_lt hlt
  refine ⟨by simp [payRecurringExpense, payTx], rfl, rfl, hne, ?_⟩
  intro h
  exact hne (congrArg Tx.date h)

theorem pay_tx_dated_at_scheduled_due_witness :
    (payTx c7State.expense).date ≠
      (payTx (payRecurringExpense c7State true true).expense).date :=
  (pay_tx_dated_at_scheduled_due c7State (by decide)).2.2.2.1

/-- Claim C8: for every due date and every moment of "today" (calendar date
plus time of day `t < 86400000` ms), the classifier's day count equals the
calendar-day difference `dueDate - today`, and the bucket is `overdue` iff
it is negative, `dueSoon` iff it is between 0 and 7, and `scheduled`
otherwise. -/
theorem classify_day_buckets (due today : Date) (t : Nat) (ht : t < 86400000) :
    (classify due today t).2 = (rataDie due : Int) - rataDie today ∧
    ((classify due today t).1 = Bucket.overdue ↔
      (rataDie due : Int) - rataDie today < 0) ∧
    ((classify due today t).1 = Bucket.dueSoon ↔
      0 ≤ (rataDie due : Int) - rataDie today ∧
        (rataDie due : Int) - rataDie today ≤ 7) ∧
    ((classify due today t).1 = Bucket.scheduled ↔
      7 < (rataDie due : Int) - rataDie today) := by
  have hd := diffDays_eq due today t ht
  unfold classify
  rw [hd]
  dsimp only
  split_ifs with h1 h2 <;> refine ⟨rfl, ?_, ?_, ?_⟩ <;> simp_all <;> omega

theorem classify_day_buckets_witness :
    (classify ⟨2024, 3, 12⟩ ⟨2024, 3, 15⟩ 36000000).1 = Bucket.overdue ∧
    (classify ⟨2024, 3, 12⟩ ⟨2024, 3, 15⟩ 36000000).2 = -3 ∧
    (classify ⟨2024, 3, 15⟩ ⟨2024, 3, 15⟩ 36000000).1 = Bucket.dueSoon ∧
    (classify ⟨2024, 3, 15⟩ ⟨2024, 3, 15⟩ 36000000).2 = 0 ∧
    (classify ⟨2024, 3, 23⟩ ⟨2024, 3, 15⟩ 36000000).1 = Bucket.scheduled ∧
    (classify ⟨2024, 3, 23⟩ ⟨2024, 3, 15⟩ 36000000).2 = 8 := by
  refine ⟨(classify_day_buckets ⟨2024, 3, 12⟩ ⟨2024, 3, 15⟩ 36000000
      (by decide)).2.1.mpr (by decide), ?_,
    (classify_day_buckets ⟨2024, 3, 15⟩ ⟨2024, 3, 15⟩ 36000000
      (by decide)).2.2.1.mpr (by decide), ?_,
    (classify_day_buckets ⟨2024, 3, 23⟩ ⟨2024, 3, 15⟩ 36000000
      (by decide)).2.2.2.mpr (by decide), ?_⟩
  · rw [(classify_day_buckets ⟨2024, 3, 12⟩ ⟨2024, 3, 15⟩ 36000000 (by decide)).1]
    decide
  · rw [(classify_day_buckets ⟨2024, 3, 15⟩ ⟨2024, 3, 15⟩ 36000000 (by decide)).1]
    decide
  · rw [(classify_day_buckets ⟨2024, 3, 23⟩ ⟨2024, 3, 15⟩ 36000000 (by decide)).1]
    decide

/-- Claim C9: the budget aggregator returns exactly the raw sum of the
values of the transactions that are expenses, whose category id is among
the ids resolved from the budget's display name, and whose date falls in
the current month (`monthly`) or current year (`annual`) — and on the
spec's example (500 + 300 in the current month, 100 in another month) it
returns 800, not 900. -/
theorem getSpent_raw_window_sum :
    (∀ (name : String) (txs : List Tx) (now : Date),
        getSpent name "monthly" txs now =
          ((txs.filter (fun t => decide (t.type = "despesa" ∧
              t.category ∈ getCatIds name ∧
              t.date.m = now.m ∧ t.date.y = now.y))).map Tx.value).sum) ∧
    (∀ (name : String) (txs : List Tx) (now : Date),
        getSpent name "annual" txs now =
          ((txs.filter (fun t => decide (t.type = "despesa" ∧
              t.category ∈ getCatIds name ∧ t.date.y = now.y))).map Tx.value).sum) ∧
    getSpent "Moradia" "monthly" demoTxs ⟨2024, 3, 15⟩ = 800 := by
  refine ⟨fun name txs now => ?_, fun name txs now => ?_, by decide⟩
  · unfold getSpent
    rw [foldl_add_value, zero_add]
    refine congrArg List.sum (congrArg (List.map Tx.value) ?_)
    apply List.filter_congr
    intro t _
    by_cases h1 : t.type = "despesa" <;>
      by_cases h2 : t.category ∈ getCatIds name <;>
      by_cases h3 : t.date.m = now.m <;>
      by_cases h4 : t.date.y = now.y <;>
      simp [h1, h2, h3, h4, List.elem_eq_mem]
  · unfold getSpent
    rw [foldl_add_value, zero_add]
    refine congrArg List.sum (congrArg (List.map Tx.value) ?_)
    apply List.filter_congr
    intro t _
    by_cases h1 : t.type = "despesa" <;>
      by_cases h2 : t.category ∈ getCatIds name <;>
      by_cases h4 : t.date.y = now.y <;>
      simp [h1, h2, h4, List.elem_eq_mem]

/-- Claim C10: the ledger transaction posted by pay carries not the
obligation's display name but its image under the fixed table
Alimentação→alim, Transporte→trans, Moradia→mor, Saúde→sau, Lazer→laz,
Outros→out-desp, and any display name outside the table is recorded as
`out-desp` rather than rejected. -/
theorem pay_category_mapped (e : Expense) :
    (payTx e).category =
      (if e.category = "Alimentação" then "alim"
       else if e.category = "Transporte" then "trans"
       else if e.category = "Moradia" then "mor"
       else if e.category = "Saúde" then "sau"
       else if e.category = "Lazer" then "laz"
       else if e.category = "Outros" then "out-desp"
       else "out-desp") := by
  simp only [payTx, RECURRING_CAT_MAP, List.lookup]
  repeat' split
  all_goals simp_all

end Gestor
